import Mathlib

/-!
Verification of the e-commerce analytics ETL pipeline
(app/etl/pipeline.py together with the quality checks of
app/workflows/etl_workflow.py) against its specification.

The pipeline is embedded shallowly:

  * a pandas DataFrame becomes a list of typed rows; the CSV header is kept
    alongside as a list of column names, since the validators check column
    presence on the header while the rows themselves are typed records;
  * money and quantities are exact rationals (the source operates on floats;
    the claims treat the arithmetic algebraically);
  * timestamps are integer minutes since the epoch 1970-01-01 00:00 UTC, so
    that the distinction between a timestamp and its calendar day (pandas
    Grouper with freq D, date_range with freq D, dayofweek) is preserved;
  * a nullable column (NaN / NaT / None in pandas) becomes an Option;
  * a pandas left merge becomes leftJoin below: every left row is kept, an
    unmatched left row once with null right-hand fields, a matched left row
    once per matching right row (pandas duplicates rows on duplicate keys);
  * a groupby becomes keysOf / the per-key filter: pandas drops rows whose
    group key is missing (dropna default), which filterMap models; the order
    of the groups (pandas sorts them) is not modelled, no property depends
    on it;
  * code that raises becomes Except, and the try/finally of ETLPipeline.run
    becomes a record that always reports the engine disposed.
-/

/-! ## Generic list helpers -/

/-- Sum of a list of rationals. -/
def qsum (l : List ℚ) : ℚ := l.foldr (· + ·) 0

/-- Sum of the present values of a list of optional rationals: the pandas
groupby sum skips missing values, and an all-missing group sums to 0. -/
def osum (l : List (Option ℚ)) : ℚ := qsum (l.filterMap id)

/-- Left join in the sense of a pandas merge with how set to left: every row
of `left` is kept; a row with no match in `right` is combined with `none`
once; a row with matches is combined with each of them in order. -/
def leftJoin (eq : α → β → Bool) (combine : α → Option β → γ)
    (right : List β) (left : List α) : List γ :=
  left.flatMap fun a =>
    match right.filter (eq a) with
    | [] => [combine a none]
    | ms => ms.map fun b => combine a (some b)

/-- Distinct group keys of a list of rows: rows whose key is missing are
dropped, exactly as a pandas groupby drops rows with a missing group key. -/
def keysOf (key : α → Option κ) [DecidableEq κ] (l : List α) : List κ :=
  (l.filterMap key).dedup

/-- Minimum of a list of integers (0 for an empty list; the pipeline only
evaluates it on non-empty tables). -/
def intMin : List ℤ → ℤ
  | [] => 0
  | x :: xs => xs.foldl min x

/-- Maximum of a list of integers (0 for an empty list). -/
def intMax : List ℤ → ℤ
  | [] => 0
  | x :: xs => xs.foldl max x

/-! ## Calendar arithmetic

Timestamps are minutes since 1970-01-01 00:00. 1970-01-01 was a Thursday,
which pandas numbers 3 (Monday is 0). -/

/-- Minutes in one day. -/
def minutesPerDay : ℤ := 1440

/-- Calendar day of a timestamp: the floor of the timestamp divided by one
day, which is what grouping with pandas Grouper freq D computes. -/
def dayFloor (t : ℤ) : ℤ := Int.fdiv t minutesPerDay

/-- Day of week of a timestamp in the pandas numbering (Monday 0 .. Sunday 6);
day 0 of the epoch was a Thursday, hence the offset 3. -/
def pandasDayOfWeek (t : ℤ) : ℤ := (dayFloor t + 3) % 7

/-- Calendar fact used to state weekend properties independently of the
pandas encoding: calendar day 2 (1970-01-03) was a Saturday, so a calendar
day is a Saturday exactly when it is congruent to 2 modulo 7. -/
def isSaturday (day : ℤ) : Prop := day % 7 = 2

/-- Calendar fact: calendar day 3 (1970-01-04) was a Sunday. -/
def isSunday (day : ℤ) : Prop := day % 7 = 3

/-- Rounding to 4 decimal places, as the spec states for profit margins.
The source rounds a binary float (pandas round, ties to even); at the
granularity of the claims the two agree away from exact 5-in-the-fifth-place
ties, which exact rational arithmetic makes immaterial here. -/
def round4 (x : ℚ) : ℚ := ((round (x * 10000) : ℤ) : ℚ) / 10000

/-! ## Email validation

The validator matches the column against the regular expression
  caret [a-zA-Z0-9._%+-]+ at [a-zA-Z0-9.-]+ dot [a-zA-Z]-2-or-more dollar
with pandas str.match; the pattern is anchored at both ends, contains
exactly one at-sign, and the part after the last dot must be two or more
letters.  Because the top-level-domain part admits only letters, a string
matches the pattern exactly when splitting at the first at-sign and at the
last dot afterwards succeeds, which the executable check below performs. -/

/-- Characters admitted in the local part of the pattern. -/
def isLocalChar (c : Char) : Bool :=
  (('a' ≤ c && c ≤ 'z') || ('A' ≤ c && c ≤ 'Z') || ('0' ≤ c && c ≤ '9')
    || c = '.' || c = '_' || c = '%' || c = '+' || c = '-')

/-- Characters admitted in the domain part of the pattern. -/
def isDomainChar (c : Char) : Bool :=
  (('a' ≤ c && c ≤ 'z') || ('A' ≤ c && c ≤ 'Z') || ('0' ≤ c && c ≤ '9')
    || c = '.' || c = '-')

/-- Letters, for the top-level-domain part of the pattern. -/
def isAlphaChar (c : Char) : Bool :=
  (('a' ≤ c && c ≤ 'z') || ('A' ≤ c && c ≤ 'Z'))

/-- The part after the at-sign: a non-empty run of domain characters, a dot,
then two or more letters, running to the end of the string. -/
def emailDomainOK (d : List Char) : Bool :=
  let rd := d.reverse
  let tld := rd.takeWhile (fun c => !(c = '.'))
  (decide (tld.length < rd.length) && decide (2 ≤ tld.length)
    && tld.all isAlphaChar
    && decide (1 ≤ (rd.drop (tld.length + 1)).length)
    && (rd.drop (tld.length + 1)).all isDomainChar)

/-- Whether a string matches the email pattern of the validator. -/
def emailValid (s : String) : Bool :=
  let cs := s.toList
  let loc := cs.takeWhile (fun c => !(c = '@'))
  match cs.drop loc.length with
  | '@' :: dom => decide (1 ≤ loc.length) && loc.all isLocalChar && emailDomainOK dom
  | _ => false

/-! ## Data model: raw CSV rows

One structure per input file.  Numeric parsing, datetime parsing and the
to-numeric coercion of parent_id are abstracted: a field a CSV may leave
blank or unparsable is an Option.  Customer emails are taken as strings: a
missing email would make the validator itself fall over in pandas (inverting
a match series that contains a missing value), and no claim concerns it. -/

structure RawCategoryRow where
  category_id : ℤ
  name : String
  description : Option String
  parent_id : Option ℤ
deriving DecidableEq

structure RawProductRow where
  product_id : ℤ
  name : String
  description : Option String
  price : ℚ
  cost : ℚ
  category_id : Option ℤ
  sku : String
  weight : Option ℚ
  is_active : Option Bool
deriving DecidableEq

structure RawCustomerRow where
  customer_id : ℤ
  email : String
  first_name : String
  last_name : String
deriving DecidableEq

structure RawOrderRow where
  order_id : ℤ
  customer_id : ℤ
  order_date : ℤ
  status : String
  payment_method : String
  total_amount : ℚ
deriving DecidableEq

structure RawOrderItemRow where
  order_item_id : ℤ
  order_id : ℤ
  product_id : ℤ
  quantity : ℚ
  price : ℚ
  total : ℚ
deriving DecidableEq

/-- A raw input file: the CSV header (the validators check required columns
against it) and the typed rows. -/
structure RawTable (α : Type) where
  cols : List String
  rows : List α
deriving DecidableEq

/-- The five input files read by extract. -/
structure RawInputs where
  categories : RawTable RawCategoryRow
  products : RawTable RawProductRow
  customers : RawTable RawCustomerRow
  orders : RawTable RawOrderRow
  order_items : RawTable RawOrderItemRow
deriving DecidableEq

/-! ## Data model: validated and derived rows -/

structure CategoryRow where
  category_id : ℤ
  name : String
  description : String
  parent_id : Option ℤ
deriving DecidableEq

structure ProductRow where
  product_id : ℤ
  name : String
  description : String
  price : ℚ
  cost : ℚ
  category_id : Option ℤ
  sku : String
  weight : ℚ
  is_active : Bool
deriving DecidableEq

structure CustomerRow where
  customer_id : ℤ
  email : Option String
  first_name : String
  last_name : String
deriving DecidableEq

structure OrderRow where
  order_id : ℤ
  customer_id : ℤ
  order_date : ℤ
  status : String
  payment_method : String
  total_amount : ℚ
deriving DecidableEq

/-- Order items pass validation unchanged. -/
abbrev OrderItemRow := RawOrderItemRow

/-- Product row after transform step 1: the category display name imported by
the left join (suffixed name_category by pandas because both tables have a
name column) and the computed profit margin.  The margin is None when the
price is 0: pandas produces NaN or an infinity there, a value that is
undefined but raises nothing. -/
structure EProductRow where
  product_id : ℤ
  name : String
  description : String
  price : ℚ
  cost : ℚ
  category_id : Option ℤ
  sku : String
  weight : ℚ
  is_active : Bool
  name_category : Option String
  profit_margin : Option ℚ
deriving DecidableEq

/-- Order row after transform step 2: the aggregates total, profit and
quantity merged back from the per-order sums; an order with no items keeps
them missing. -/
structure EOrderRow where
  order_id : ℤ
  customer_id : ℤ
  order_date : ℤ
  status : String
  payment_method : String
  total_amount : ℚ
  total : Option ℚ
  profit : Option ℚ
  quantity : Option ℚ
deriving DecidableEq

/-- Customer row after transform step 3. -/
structure ECustomerRow where
  customer_id : ℤ
  email : Option String
  first_name : String
  last_name : String
  total_orders : Option ℕ
  lifetime_value : Option ℚ
  first_order_date : Option ℤ
  last_order_date : Option ℤ
  average_order_value : Option ℚ
  days_between_orders : Option ℚ
deriving DecidableEq

/-- The columns step 4 selects from the orders table. -/
structure OrderView where
  order_id : ℤ
  order_date : ℤ
  status : String
deriving DecidableEq

/-- The columns step 4 selects from the products table. -/
structure ProductView where
  product_id : ℤ
  category_id : Option ℤ
deriving DecidableEq

/-- A row of the join of step 4: an order item carrying the date and status
of its order and the category of its product, each missing when the left
join found no match. -/
structure SalesJoinRow where
  order_item_id : ℤ
  order_id : ℤ
  product_id : ℤ
  quantity : ℚ
  price : ℚ
  total : ℚ
  order_date : Option ℤ
  status : Option String
  category_id : Option ℤ
deriving DecidableEq

/-- A row of the daily sales aggregation; order_date is the calendar day the
group key floors the timestamps to. -/
structure DailySalesRow where
  order_date : ℤ
  product_id : ℤ
  category_id : ℤ
  units_sold : ℚ
  revenue : ℚ
  order_count : ℕ
  avg_unit_price : ℚ
deriving DecidableEq

/-- A row of the generated time dimension.  The further calendar breakdown
columns of the source (day_of_month, day_of_year, week_of_year, month,
month_name, quarter, year) are not modelled; no claim mentions them. -/
structure TimeDimRow where
  date : ℤ
  day_of_week : ℤ
  is_weekend : Bool
  is_holiday : Bool
deriving DecidableEq

/-- Targets of a bulk write. -/
inductive WriteMode where
  | replace
  | append
deriving DecidableEq

/-- One bulk insert: target table, replace or append, and how many rows. -/
structure WriteEvent where
  table : String
  mode : WriteMode
  rows : ℕ
deriving DecidableEq

/-! ## Validators (ETLPipeline extract helpers)

Each validator mirrors one read-and-validate method: check the fixed
required column set against the header, fail the whole batch on a hard
business-rule violation, and apply the field cleaning.  The error strings
are the messages the source raises. -/

def requiredColumnsCategories : List String :=
  ["category_id", "name", "description", "parent_id"]

def requiredColumnsProducts : List String :=
  ["product_id", "name", "price", "category_id", "sku"]

def requiredColumnsCustomers : List String :=
  ["customer_id", "email", "first_name", "last_name"]

def requiredColumnsOrders : List String :=
  ["order_id", "customer_id", "order_date", "status", "payment_method", "total_amount"]

def requiredColumnsOrderItems : List String :=
  ["order_item_id", "order_id", "product_id", "quantity", "price", "total"]

/-- Whether every required column is present in the header. -/
def hasRequired (req cols : List String) : Bool :=
  req.all (fun c => cols.contains c)

/-- Mirrors read-and-validate-categories: required columns, then null
description to empty string; the numeric coercion of parent_id is already
reflected in the typed row. -/
def validateCategories (t : RawTable RawCategoryRow) : Except String (List CategoryRow) :=
  if hasRequired requiredColumnsCategories t.cols then
    .ok (t.rows.map fun r => ⟨r.category_id, r.name, r.description.getD "", r.parent_id⟩)
  else
    .error "Missing required columns in product_categories.csv"

/-- Mirrors read-and-validate-products: required columns, reject the batch on
any negative price, then fill description, weight and is_active. -/
def validateProducts (t : RawTable RawProductRow) : Except String (List ProductRow) :=
  if hasRequired requiredColumnsProducts t.cols then
    if t.rows.any (fun r => decide (r.price < 0)) then
      .error "Found negative prices in products data"
    else
      .ok (t.rows.map fun r =>
        ⟨r.product_id, r.name, r.description.getD "", r.price, r.cost,
          r.category_id, r.sku, r.weight.getD 0, r.is_active.getD true⟩)
  else
    .error "Missing required columns in products.csv"

/-- Mirrors read-and-validate-customers: required columns, then null the
email of every row whose email does not match the pattern; the row itself is
kept either way. -/
def validateCustomers (t : RawTable RawCustomerRow) : Except String (List CustomerRow) :=
  if hasRequired requiredColumnsCustomers t.cols then
    .ok (t.rows.map fun r =>
      ⟨r.customer_id, if emailValid r.email then some r.email else none,
        r.first_name, r.last_name⟩)
  else
    .error "Missing required columns in customers.csv"

/-- Mirrors read-and-validate-orders: required columns, datetime parsing
(absorbed into the typed row), reject the batch on any negative total. -/
def validateOrders (t : RawTable RawOrderRow) : Except String (List OrderRow) :=
  if hasRequired requiredColumnsOrders t.cols then
    if t.rows.any (fun r => decide (r.total_amount < 0)) then
      .error "Found negative order amounts"
    else
      .ok (t.rows.map fun r =>
        ⟨r.order_id, r.customer_id, r.order_date, r.status, r.payment_method, r.total_amount⟩)
  else
    .error "Missing required columns in orders.csv"

/-- Mirrors read-and-validate-order-items: required columns, reject the batch
on any non-positive quantity or negative price. -/
def validateOrderItems (t : RawTable RawOrderItemRow) : Except String (List OrderItemRow) :=
  if hasRequired requiredColumnsOrderItems t.cols then
    if t.rows.any (fun r => decide (r.quantity ≤ 0)) then
      .error "Found zero or negative quantities"
    else if t.rows.any (fun r => decide (r.price < 0)) then
      .error "Found negative prices"
    else
      .ok t.rows
  else
    .error "Missing required columns in order_items.csv"

/-- The validated in-memory tables (the dfs dictionary after extract). -/
structure Tables where
  categories : List CategoryRow
  products : List ProductRow
  customers : List CustomerRow
  orders : List OrderRow
  order_items : List OrderItemRow
deriving DecidableEq

/-- Mirrors ETLPipeline.extract: the five validators in order, the first
error aborting extraction. -/
def extractAll (inp : RawInputs) : Except String Tables := do
  let cats ← validateCategories inp.categories
  let prods ← validateProducts inp.products
  let custs ← validateCustomers inp.customers
  let ords ← validateOrders inp.orders
  let its ← validateOrderItems inp.order_items
  return ⟨cats, prods, custs, ords, its⟩

/-! ## Transform step 1: product enrichment -/

/-- Profit margin of one product: price minus cost over price, rounded to 4
decimals.  None models the undefined float (NaN or an infinity) pandas
produces at price 0; the division raises nothing either way. -/
def marginOf (price cost : ℚ) : Option ℚ :=
  if price = 0 then none else some (round4 ((price - cost) / price))

/-- Mirrors transform-product-data: left join products to categories on
category_id, import the category name (suffixed, both tables have a name
column), and compute the profit margin. -/
def transformProductData (products : List ProductRow) (categories : List CategoryRow) :
    List EProductRow :=
  leftJoin (fun p c => decide (p.category_id = some c.category_id))
    (fun p m =>
      ⟨p.product_id, p.name, p.description, p.price, p.cost, p.category_id,
        p.sku, p.weight, p.is_active, m.map (fun c => c.name),
        marginOf p.price p.cost⟩)
    categories products

/-! ## Transform step 2: order revenue -/

/-- An order item together with the cost its left join to products found. -/
structure ItemWithCost where
  item : OrderItemRow
  cost : Option ℚ
deriving DecidableEq

/-- Per-item profit: total minus cost times quantity; missing when the cost
is missing (NaN propagates through the product and subtraction). -/
def itemProfit (iw : ItemWithCost) : Option ℚ :=
  iw.cost.map fun c => iw.item.total - c * iw.item.quantity

/-- The left join of order items to products that provides each item its
cost. -/
def itemsWithProducts (items : List OrderItemRow) (products : List EProductRow) :
    List ItemWithCost :=
  leftJoin (fun it p => decide (p.product_id = it.product_id))
    (fun it m => ⟨it, m.map (fun p => p.cost)⟩)
    products items

/-- The per-order sums of step 2. -/
structure OrderMetrics where
  order_id : ℤ
  total : ℚ
  profit : ℚ
  quantity : ℚ
deriving DecidableEq

/-- Group the cost-joined items by order_id and sum total, profit and
quantity (the profit sum skips items whose cost is missing, as the pandas
sum skips NaN). -/
def orderMetricsOf (iwc : List ItemWithCost) : List OrderMetrics :=
  (keysOf (fun iw => some iw.item.order_id) iwc).map fun oid =>
    let g := iwc.filter fun iw => decide (iw.item.order_id = oid)
    ⟨oid, qsum (g.map fun iw => iw.item.total), osum (g.map itemProfit),
      qsum (g.map fun iw => iw.item.quantity)⟩

/-- Mirrors calculate-order-revenue: join items to products for cost, sum by
order, and left join the sums back onto orders. -/
def calculateOrderRevenue (orders : List OrderRow) (items : List OrderItemRow)
    (products : List EProductRow) : List EOrderRow :=
  let ms := orderMetricsOf (itemsWithProducts items products)
  leftJoin (fun o m => decide (m.order_id = o.order_id))
    (fun o m =>
      ⟨o.order_id, o.customer_id, o.order_date, o.status, o.payment_method,
        o.total_amount, m.map (fun x => x.total), m.map (fun x => x.profit),
        m.map (fun x => x.quantity)⟩)
    ms orders

/-! ## Transform step 3: customer enrichment -/

/-- Order statuses that qualify an order for the customer metrics. -/
def qualifyingStatus (s : String) : Bool :=
  (s = "Delivered" || s = "In Transit" || s = "Shipped")

/-- The per-customer sums of step 3.  The lifetime value sums the derived
total column of step 2 and therefore skips orders whose total is missing;
days-between-orders divides the whole-day difference of the extreme order
dates (the days attribute of the timedelta, a floor) by the order count. -/
structure CustomerMetrics where
  customer_id : ℤ
  total_orders : ℕ
  lifetime_value : ℚ
  first_order_date : ℤ
  last_order_date : ℤ
  average_order_value : ℚ
  days_between_orders : ℚ
deriving DecidableEq

/-- Group the status-filtered orders by customer and aggregate. -/
def customerMetricsOf (orders : List EOrderRow) : List CustomerMetrics :=
  let f := orders.filter fun o => qualifyingStatus o.status
  (keysOf (fun o => some o.customer_id) f).map fun cid =>
    let g := f.filter fun o => decide (o.customer_id = cid)
    let lv := osum (g.map fun o => o.total)
    let fd := intMin (g.map fun o => o.order_date)
    let ld := intMax (g.map fun o => o.order_date)
    ⟨cid, g.length, lv, fd, ld, lv / (g.length : ℚ),
      ((Int.fdiv (ld - fd) minutesPerDay : ℤ) : ℚ) / (g.length : ℚ)⟩

/-- Mirrors enrich-customer-data: filter to the qualifying statuses, group by
customer, and left join the metrics onto customers. -/
def enrichCustomerData (customers : List CustomerRow) (orders : List EOrderRow) :
    List ECustomerRow :=
  leftJoin (fun c m => decide (m.customer_id = c.customer_id))
    (fun c m =>
      ⟨c.customer_id, c.email, c.first_name, c.last_name,
        m.map (fun x => x.total_orders), m.map (fun x => x.lifetime_value),
        m.map (fun x => x.first_order_date), m.map (fun x => x.last_order_date),
        m.map (fun x => x.average_order_value), m.map (fun x => x.days_between_orders)⟩)
    (customerMetricsOf orders) customers

/-! ## Transform step 4: daily sales aggregation -/

/-- The double left join of step 4: items to the selected order columns on
order_id, then to the selected product columns on product_id. -/
def salesJoin (items : List OrderItemRow) (orders : List OrderView)
    (products : List ProductView) : List SalesJoinRow :=
  leftJoin (fun (r : SalesJoinRow) (p : ProductView) => decide (p.product_id = r.product_id))
    (fun r m => { r with category_id := m.bind (fun p => p.category_id) })
    products
    (leftJoin (fun it o => decide (o.order_id = it.order_id))
      (fun it m =>
        ⟨it.order_item_id, it.order_id, it.product_id, it.quantity, it.price,
          it.total, m.map (fun o => o.order_date), m.map (fun o => o.status), none⟩)
      orders items)

/-- The status filter of step 4: isin of a missing status is false, so a row
whose order was not found passes the filter. -/
def excludedStatus (s : Option String) : Bool :=
  (s = some "Cancelled" || s = some "Returned")

/-- The group key of step 4: the calendar day of the order date, the product
and the category; missing when the date or the category is missing, in which
case the groupby drops the row. -/
def salesKey (r : SalesJoinRow) : Option (ℤ × ℤ × ℤ) :=
  match r.order_date, r.category_id with
  | some d, some c => some (dayFloor d, r.product_id, c)
  | _, _ => none

/-- Mirrors aggregate-daily-sales: join, filter out cancelled and returned
orders, group by day, product and category, sum quantity into units_sold and
total into revenue, count distinct orders, and derive the average unit
price. -/
def aggregateDailySales (orders : List OrderView) (items : List OrderItemRow)
    (products : List ProductView) : List DailySalesRow :=
  let f := (salesJoin items orders products).filter fun r => !(excludedStatus r.status)
  (keysOf salesKey f).map fun k =>
    let g := f.filter fun r => decide (salesKey r = some k)
    let units := qsum (g.map fun r => r.quantity)
    let rev := qsum (g.map fun r => r.total)
    ⟨k.1, k.2.1, k.2.2, units, rev, (g.map fun r => r.order_id).dedup.length, rev / units⟩

/-! ## Transform step 5: time dimension -/

/-- Mirrors pandas date_range with freq D: the start timestamp and every
whole day after it up to and including the end timestamp.  The rows step in
24-hour increments from the start; nothing floors them to midnight. -/
def dateRangeD (s e : ℤ) : List ℤ :=
  if s ≤ e then
    (List.range ((e - s).toNat / minutesPerDay.toNat + 1)).map fun i : ℕ =>
      s + minutesPerDay * (i : ℤ)
  else []

/-- Mirrors generate-time-dimension: one row per element of the date range
from the minimum to the maximum order date, with the pandas day of week, the
weekend flag (day of week 5 or 6) and the always-false holiday flag. -/
def generateTimeDimension (orders : List EOrderRow) : List TimeDimRow :=
  let ds := orders.map fun o => o.order_date
  (dateRangeD (intMin ds) (intMax ds)).map fun t =>
    ⟨t, pandasDayOfWeek t,
      (pandasDayOfWeek t = 5 || pandasDayOfWeek t = 6), false⟩

/-! ## The transform phase

The source mutates the dfs dictionary in place; the five steps become named
intermediate bindings, each reading exactly the snapshots the source reads:
step 2 reads the enriched products of step 1, step 3 the enriched orders of
step 2, step 4 the enriched orders and products (projected onto the columns
it selects) and the raw order items, step 5 the enriched orders. -/

/-- Projection of an enriched order onto the columns step 4 selects. -/
def orderView (o : EOrderRow) : OrderView := ⟨o.order_id, o.order_date, o.status⟩

/-- Projection of an enriched product onto the columns step 4 selects. -/
def productView (p : EProductRow) : ProductView := ⟨p.product_id, p.category_id⟩

/-- Projection of a raw validated order onto the same columns. -/
def rawOrderView (o : OrderRow) : OrderView := ⟨o.order_id, o.order_date, o.status⟩

/-- Projection of a raw validated product onto the same columns. -/
def rawProductView (p : ProductRow) : ProductView := ⟨p.product_id, p.category_id⟩

/-- Step 1 as the pipeline runs it. -/
def productsEnriched (t : Tables) : List EProductRow :=
  transformProductData t.products t.categories

/-- Step 2 as the pipeline runs it: reads the enriched products. -/
def ordersEnriched (t : Tables) : List EOrderRow :=
  calculateOrderRevenue t.orders t.order_items (productsEnriched t)

/-- Step 3 as the pipeline runs it: reads the enriched orders. -/
def customersEnriched (t : Tables) : List ECustomerRow :=
  enrichCustomerData t.customers (ordersEnriched t)

/-- Step 4 as the pipeline runs it: reads the enriched orders and products
through the column selections, and the raw order items. -/
def dailySalesPipeline (t : Tables) : List DailySalesRow :=
  aggregateDailySales ((ordersEnriched t).map orderView) t.order_items
    ((productsEnriched t).map productView)

/-- Step 5 as the pipeline runs it: reads the enriched orders. -/
def timeDimPipeline (t : Tables) : List TimeDimRow :=
  generateTimeDimension (ordersEnriched t)

/-- The transformed tables the load phase writes. -/
structure TransformedTables where
  categories : List CategoryRow
  products : List EProductRow
  customers : List ECustomerRow
  orders : List EOrderRow
  order_items : List OrderItemRow
  daily_sales : List DailySalesRow
  dim_time : List TimeDimRow
deriving DecidableEq

/-- Mirrors ETLPipeline.transform.  On an empty orders table the source
raises inside step 5 (date_range of NaT); the guard models that error up
front, the only failure point of the transform phase on validated tables. -/
def transformAll (t : Tables) : Except String TransformedTables :=
  if t.orders.isEmpty then
    .error "Neither start nor end can be NaT"
  else
    .ok ⟨t.categories, productsEnriched t, customersEnriched t, ordersEnriched t,
      t.order_items, dailySalesPipeline t, timeDimPipeline t⟩

/-! ## The load phase and the run -/

/-- The write sequence of the load phase: the dimension tables in replace
mode in the order of load-dimension-tables, then the fact tables in append
mode in the order of load-fact-tables. -/
def plannedWrites (tt : TransformedTables) : List WriteEvent :=
  [⟨"dim_time", .replace, tt.dim_time.length⟩,
   ⟨"product_categories", .replace, tt.categories.length⟩,
   ⟨"products", .replace, tt.products.length⟩,
   ⟨"customers", .replace, tt.customers.length⟩,
   ⟨"orders", .append, tt.orders.length⟩,
   ⟨"order_items", .append, tt.order_items.length⟩,
   ⟨"daily_sales_aggregation", .append, tt.daily_sales.length⟩]

/-- Perform the writes in order against a database modelled as an oracle
saying which table writes fail; the first failure aborts everything after
it.  Returns the writes performed and the failed table, if any. -/
def performWrites (fails : String → Bool) : List WriteEvent → List WriteEvent × Option String
  | [] => ([], none)
  | w :: ws =>
    if fails w.table then ([], some w.table)
    else
      let r : List WriteEvent × Option String := performWrites fails ws
      (w :: r.1, r.2)

/-- What one run leaves behind: the bulk writes that reached the warehouse,
the failure that aborted the run if one did, and whether the engine was
disposed. -/
structure RunOutcome where
  writes : List WriteEvent
  failure : Option String
  disposed : Bool
deriving DecidableEq

/-- Mirrors ETLPipeline.run: extract, transform, load inside a try block
whose finally disposes the engine on every exit path. -/
def runPipeline (inp : RawInputs) (fails : String → Bool) : RunOutcome :=
  match extractAll inp with
  | .error e => ⟨[], some e, true⟩
  | .ok t =>
    match transformAll t with
    | .error e => ⟨[], some e, true⟩
    | .ok tt =>
      let r := performWrites fails (plannedWrites tt)
      ⟨r.1, r.2, true⟩

/-- Specification-side reference for claim C8, following the words of the
spec: the daily sales aggregation computed from the raw post-validation
snapshots of the orders, order items and products tables (join
OrderItem to Order for date and status and to Product for category, exclude
cancelled and returned, group and sum). -/
def dailySalesRawSnapshot (t : Tables) : List DailySalesRow :=
  aggregateDailySales (t.orders.map rawOrderView) t.order_items
    (t.products.map rawProductView)

/-! ## Quality metrics (etl_workflow check_data_quality)

The customers rule counts the rows whose email does not contain an at-sign,
on the table as it stands after the pipeline ran, where validation has
already replaced every invalid email by a missing value.  In pandas,
str.contains maps a missing email to a missing value, and inverting a series
that holds one raises a TypeError (unary invert of a float); were the
missing entries skipped instead, they would still count for nothing.  Either
way a row whose email validation nulled can never reach the count, which the
error value records. -/

/-- The invalid-emails business-rule count over the email column. -/
def invalidEmailsMetric (emails : List (Option String)) : Except String ℕ :=
  if emails.any (fun e => e.isNone) then
    .error "TypeError: bad operand type for unary invert"
  else
    .ok ((emails.filterMap id).countP fun e => !(e.toList.any (fun c => c = '@')))

/-- The cost the left join of step 2 finds for an order item: the cost of
the first product row carrying its product_id, if any.  When product ids are
unique this is the join semantics of itemsWithProducts. -/
def costLookup (products : List EProductRow) (it : OrderItemRow) : Option ℚ :=
  (products.find? fun p => decide (p.product_id = it.product_id)).map fun p => p.cost

/-- The consecutive integers from a to b inclusive (empty when b < a): the
reference shape for one row per calendar day with no gap and no
duplicate. -/
def intRangeI (a b : ℤ) : List ℤ :=
  (List.range (b - a + 1).toNat).map fun i : ℕ => a + (i : ℤ)

/-- The rows a single order item contributes to the join of step 4 (used to
reason per item about the join). -/
def salesJoinRowsOf (orders : List OrderView) (products : List ProductView)
    (it : OrderItemRow) : List SalesJoinRow :=
  salesJoin [it] orders products

/-! ## Concrete example data

A small consistent data set (the two-item delivered order of the spec
scenario: item totals 20 and 30, so the order total must come to 50),
plus the inputs that exhibit the deviating behaviours. -/

/-- Example category. -/
def exCategory : CategoryRow := ⟨1, "Electronics", "", none⟩

/-- Example products: prices 10 and 15, costs 4 and 5. -/
def exProduct1 : ProductRow := ⟨1, "Widget", "", 10, 4, some 1, "SKU1", 0, true⟩

def exProduct2 : ProductRow := ⟨2, "Gadget", "", 15, 5, some 1, "SKU2", 0, true⟩

/-- Example delivered order placed at the epoch midnight. -/
def exOrder : OrderRow := ⟨1, 1, 0, "Delivered", "card", 50⟩

/-- Example items of the order: quantities 2 and 2, totals 20 and 30. -/
def exItem1 : OrderItemRow := ⟨1, 1, 1, 2, 10, 20⟩

def exItem2 : OrderItemRow := ⟨2, 1, 2, 2, 15, 30⟩

def exCustomer : CustomerRow := ⟨1, some "john@example.com", "John", "Doe"⟩

/-- The validated tables of the example data set. -/
def exTables : Tables :=
  ⟨[exCategory], [exProduct1, exProduct2], [exCustomer], [exOrder], [exItem1, exItem2]⟩

/-- The raw inputs whose extraction produces exactly exTables. -/
def exInputs : RawInputs :=
  ⟨⟨requiredColumnsCategories, [⟨1, "Electronics", none, none⟩]⟩,
   ⟨requiredColumnsProducts,
     [⟨1, "Widget", none, 10, 4, some 1, "SKU1", none, none⟩,
      ⟨2, "Gadget", none, 15, 5, some 1, "SKU2", none, none⟩]⟩,
   ⟨requiredColumnsCustomers, [⟨1, "john@example.com", "John", "Doe"⟩]⟩,
   ⟨requiredColumnsOrders, [⟨1, 1, 0, "Delivered", "card", 50⟩]⟩,
   ⟨requiredColumnsOrderItems, [⟨1, 1, 1, 2, 10, 20⟩, ⟨2, 1, 2, 2, 15, 30⟩]⟩⟩

/-- The transformed tables of the example data set. -/
def exTransformed : TransformedTables :=
  ⟨exTables.categories, productsEnriched exTables, customersEnriched exTables,
    ordersEnriched exTables, exTables.order_items, dailySalesPipeline exTables,
    timeDimPipeline exTables⟩

/-- Raw inputs with one product priced -5: the hard business-rule violation
of the spec scenario. -/
def exInputsNegPrice : RawInputs :=
  ⟨⟨requiredColumnsCategories, [⟨1, "Electronics", none, none⟩]⟩,
   ⟨requiredColumnsProducts, [⟨1, "Widget", none, -5, 4, some 1, "SKU1", none, none⟩]⟩,
   ⟨requiredColumnsCustomers, [⟨1, "john@example.com", "John", "Doe"⟩]⟩,
   ⟨requiredColumnsOrders, [⟨1, 1, 0, "Delivered", "card", 50⟩]⟩,
   ⟨requiredColumnsOrderItems, [⟨1, 1, 1, 2, 10, 20⟩]⟩⟩

/-- A customers file with one malformed email among valid ones. -/
def exRawCustomersBadEmail : RawTable RawCustomerRow :=
  ⟨requiredColumnsCustomers,
    [⟨1, "plainaddress", "Jane", "Roe"⟩, ⟨2, "john@example.com", "John", "Doe"⟩]⟩

/-- Tables whose categories table repeats category_id 1: the product join of
step 1 duplicates the product row, and step 4 double-counts it. -/
def exTablesDupCategory : Tables :=
  ⟨[⟨1, "Electronics", "", none⟩, ⟨1, "Accessories", "", none⟩],
   [exProduct1], [], [exOrder], [⟨1, 1, 1, 1, 10, 10⟩]⟩

/-- Enriched orders at intraday timestamps: 06:00 of day 0 and 01:00 of
day 1; the generated date range holds a single row although the orders span
two calendar days. -/
def exOrdersIntraday : List EOrderRow :=
  [⟨1, 1, 360, "Delivered", "card", 10, none, none, none⟩,
   ⟨2, 1, 1500, "Delivered", "card", 10, none, none, none⟩]

/-- Enriched orders at midnight timestamps spanning days 0, 1 and 2. -/
def exOrdersMidnight : List EOrderRow :=
  [⟨1, 1, 0, "Delivered", "card", 50, none, none, none⟩,
   ⟨2, 1, 2880, "Shipped", "card", 10, none, none, none⟩]

/-- The enriched Widget row of the example data set, as step 1 produces it:
margin (10 - 4) / 10 = 0.6. -/
def exEnrichedWidget : EProductRow :=
  ⟨1, "Widget", "", 10, 4, some 1, "SKU1", 0, true, some "Electronics", some (3 / 5)⟩

/-- The daily sales row of the Widget on day 0 in the example data set:
2 units, revenue 20, one distinct order, average unit price 10. -/
def exDailySalesRow : DailySalesRow := ⟨0, 1, 1, 2, 20, 1, 10⟩

/-! ## Toolkit lemmas about the join and grouping combinators -/

/-- Membership in a left join: every output row combines a left row with an
optional match. -/
theorem leftJoin_mem {eq : α → β → Bool} {combine : α → Option β → γ}
    {right : List β} {left : List α} {r : γ}
    (hr : r ∈ leftJoin eq combine right left) :
    ∃ a ∈ left, (∃ m, r = combine a m) := by
  rcases List.mem_flatMap.1 hr with ⟨a, ha, hmem⟩
  refine ⟨a, ha, ?_⟩
  revert hmem
  cases h : right.filter (eq a) with
  | nil => intro hmem; exact ⟨none, List.mem_singleton.1 hmem⟩
  | cons b bs =>
    intro hmem
    rcases List.mem_map.1 hmem with ⟨b', _, hb'⟩
    exact ⟨some b', hb'.symm⟩

/-- A filter whose satisfying elements all share one key has at most one
element when the mapped keys are distinct. -/
theorem filter_length_le_one {l : List β} {key : β → κ} {p : β → Bool}
    (hp : ∀ b b', p b = true → p b' = true → key b = key b')
    (h : (l.map key).Nodup) : (l.filter p).length ≤ 1 := by
  induction l with
  | nil => simp
  | cons b bs ih =>
    rw [List.map_cons, List.nodup_cons] at h
    by_cases hb : p b = true
    · rw [List.filter_cons_of_pos hb]
      have : bs.filter p = [] := by
        rw [List.filter_eq_nil_iff]
        intro b' hb' hpb'
        exact h.1 (List.mem_map.2 ⟨b', hb', (hp b' b hpb' hb).symm ▸ rfl⟩)
      simp [this]
    · rw [List.filter_cons_of_neg (by simpa using hb)]
      exact ih h.2

/-- If the filter of a list starts with an element, find? returns it. -/
theorem find?_of_filter_cons {l : List β} {p : β → Bool} {b : β} {bs : List β}
    (h : l.filter p = b :: bs) : l.find? p = some b := by
  induction l with
  | nil => simp at h
  | cons c cs ih =>
    by_cases hc : p c = true
    · rw [List.filter_cons_of_pos hc] at h
      rw [List.find?_cons_of_pos _ hc]
      exact congrArg some (List.cons.injEq .. ▸ h).1
    · rw [List.filter_cons_of_neg (by simpa using hc)] at h
      rw [List.find?_cons_of_neg _ (by simpa using hc)]
      exact ih h

/-- A left join against a right table whose matches are unique per left row
is a map, pairing each left row with the first (and only) match. -/
theorem leftJoin_eq_map_find {eq : α → β → Bool} {combine : α → Option β → γ}
    {right : List β} {left : List α}
    (h : ∀ a, (right.filter (eq a)).length ≤ 1) :
    leftJoin eq combine right left
      = left.map fun a => combine a (right.find? (eq a)) := by
  unfold leftJoin
  induction left with
  | nil => rfl
  | cons a as ih =>
    rw [List.flatMap_cons, List.map_cons, ih]
    cases hf : right.filter (eq a) with
    | nil =>
      have : right.find? (eq a) = none :=
        List.find?_eq_none.2 fun b hb hpb =>
          (List.filter_eq_nil_iff.1 hf) b hb hpb
      simp [this]
    | cons b bs =>
      have hbs : bs = [] := by
        have hl := h a
        rw [hf, List.length_cons] at hl
        have hz : bs.length = 0 := by omega
        exact List.length_eq_zero.1 hz
      subst hbs
      simp [find?_of_filter_cons hf]

/-- find? with an equality test returns the sought element exactly when it is
in the list. -/
theorem find?_eq_self [DecidableEq κ] (l : List κ) (x : κ) :
    l.find? (fun k => decide (k = x)) = if x ∈ l then some x else none := by
  induction l with
  | nil => simp
  | cons k ks ih =>
    by_cases hk : k = x
    · subst hk
      rw [List.find?_cons_of_pos _ (by simp)]
      simp
    · rw [List.find?_cons_of_neg _ (by simpa using hk), ih]
      have hxk : ¬ x = k := fun h => hk h.symm
      simp [List.mem_cons, hxk]

/-- Membership in the distinct group keys. -/
theorem keysOf_mem {key : α → Option κ} [DecidableEq κ] {l : List α} {k : κ} :
    k ∈ keysOf key l ↔ ∃ a ∈ l, key a = some k := by
  simp [keysOf, List.mem_dedup, List.mem_filterMap]

/-- filterMap of a total key function is a map. -/
theorem filterMap_some_comp (f : α → β) (l : List α) :
    l.filterMap (fun a => some (f a)) = l.map f := by
  induction l with
  | nil => rfl
  | cons a as ih => simp [List.filterMap_cons, ih]

/-- Filtering distributes over flatMap. -/
theorem filter_flatMap (l : List α) (f : α → List β) (p : β → Bool) :
    (l.flatMap f).filter p = l.flatMap fun a => (f a).filter p := by
  induction l with
  | nil => rfl
  | cons a as ih => simp [List.flatMap_cons, List.filter_append, ih]

/-- filterMap distributes over flatMap. -/
theorem filterMap_flatMap (l : List α) (f : α → List β) (g : β → Option γ) :
    (l.flatMap f).filterMap g = l.flatMap fun a => (f a).filterMap g := by
  induction l with
  | nil => rfl
  | cons a as ih => simp [List.flatMap_cons, List.filterMap_append, ih]

/-- Elements mapped to the empty list can be dropped from a flatMap. -/
theorem flatMap_filter_of_nil {l : List α} {f : α → List β} {p : α → Bool}
    (h : ∀ a ∈ l, p a = false → f a = []) :
    (l.filter p).flatMap f = l.flatMap f := by
  induction l with
  | nil => rfl
  | cons a as ih =>
    by_cases ha : p a = true
    · rw [List.filter_cons_of_pos ha, List.flatMap_cons, List.flatMap_cons,
        ih fun x hx => h x (List.mem_cons_of_mem _ hx)]
    · have ha' : p a = false := by simpa using ha
      rw [List.filter_cons_of_neg (by simpa using ha), List.flatMap_cons,
        h a (List.mem_cons_self a as) ha', List.nil_append,
        ih fun x hx => h x (List.mem_cons_of_mem _ hx)]

/-! ## Toolkit lemmas about list minimum and maximum -/

theorem foldl_min_le_init (xs : List ℤ) (a : ℤ) : xs.foldl min a ≤ a := by
  induction xs generalizing a with
  | nil => exact le_refl a
  | cons x xs ih =>
    rw [List.foldl_cons]
    exact le_trans (ih (min a x)) (min_le_left a x)

theorem foldl_min_le_mem (xs : List ℤ) (a : ℤ) :
    ∀ x ∈ xs, xs.foldl min a ≤ x := by
  induction xs generalizing a with
  | nil => intro x hx; cases hx
  | cons y ys ih =>
    intro x hx
    rw [List.foldl_cons]
    rcases List.mem_cons.1 hx with rfl | hx
    · exact le_trans (foldl_min_le_init ys (min a x)) (min_le_right a x)
    · exact ih (min a y) x hx

theorem foldl_min_eq_or_mem (xs : List ℤ) (a : ℤ) :
    xs.foldl min a = a ∨ xs.foldl min a ∈ xs := by
  induction xs generalizing a with
  | nil => left; rfl
  | cons x xs ih =>
    rw [List.foldl_cons]
    rcases ih (min a x) with h | h
    · rcases min_choice a x with hm | hm
      · left; rw [h, hm]
      · right; rw [h, hm]; exact List.mem_cons_self x xs
    · right; exact List.mem_cons_of_mem x h

theorem le_foldl_max_init (xs : List ℤ) (a : ℤ) : a ≤ xs.foldl max a := by
  induction xs generalizing a with
  | nil => exact le_refl a
  | cons x xs ih =>
    rw [List.foldl_cons]
    exact le_trans (le_max_left a x) (ih (max a x))

theorem le_foldl_max_mem (xs : List ℤ) (a : ℤ) :
    ∀ x ∈ xs, x ≤ xs.foldl max a := by
  induction xs generalizing a with
  | nil => intro x hx; cases hx
  | cons y ys ih =>
    intro x hx
    rw [List.foldl_cons]
    rcases List.mem_cons.1 hx with rfl | hx
    · exact le_trans (le_max_right a x) (le_foldl_max_init ys (max a x))
    · exact ih (max a y) x hx

theorem foldl_max_eq_or_mem (xs : List ℤ) (a : ℤ) :
    xs.foldl max a = a ∨ xs.foldl max a ∈ xs := by
  induction xs generalizing a with
  | nil => left; rfl
  | cons x xs ih =>
    rw [List.foldl_cons]
    rcases ih (max a x) with h | h
    · rcases max_choice a x with hm | hm
      · left; rw [h, hm]
      · right; rw [h, hm]; exact List.mem_cons_self x xs
    · right; exact List.mem_cons_of_mem x h

/-- The minimum of a non-empty list is one of its elements. -/
theorem intMin_mem {l : List ℤ} (h : l ≠ []) : intMin l ∈ l := by
  cases l with
  | nil => exact absurd rfl h
  | cons x xs =>
    rcases foldl_min_eq_or_mem xs x with h' | h'
    · rw [intMin, h']; exact List.mem_cons_self x xs
    · exact List.mem_cons_of_mem x h'

/-- The minimum is a lower bound. -/
theorem intMin_le {l : List ℤ} : ∀ x ∈ l, intMin l ≤ x := by
  cases l with
  | nil => intro x hx; cases hx
  | cons y ys =>
    intro x hx
    rcases List.mem_cons.1 hx with rfl | hx
    · exact foldl_min_le_init ys x
    · exact foldl_min_le_mem ys y x hx

/-- The maximum of a non-empty list is one of its elements. -/
theorem intMax_mem {l : List ℤ} (h : l ≠ []) : intMax l ∈ l := by
  cases l with
  | nil => exact absurd rfl h
  | cons x xs =>
    rcases foldl_max_eq_or_mem xs x with h' | h'
    · rw [intMax, h']; exact List.mem_cons_self x xs
    · exact List.mem_cons_of_mem x h'

/-- The maximum is an upper bound. -/
theorem le_intMax {l : List ℤ} : ∀ x ∈ l, x ≤ intMax l := by
  cases l with
  | nil => intro x hx; cases hx
  | cons y ys =>
    intro x hx
    rcases List.mem_cons.1 hx with rfl | hx
    · exact le_foldl_max_init ys x
    · exact le_foldl_max_mem ys y x hx

/-- Detailed membership in a left join: an output row either pairs a left
row with no match, the filter being empty, or with an actual match from the
right table satisfying the join predicate. -/
theorem leftJoin_mem_cases {eq : α → β → Bool} {combine : α → Option β → γ}
    {right : List β} {left : List α} {r : γ}
    (hr : r ∈ leftJoin eq combine right left) :
    ∃ a ∈ left, (r = combine a none ∧ right.filter (eq a) = [])
      ∨ (∃ b ∈ right, eq a b = true ∧ r = combine a (some b)) := by
  rcases List.mem_flatMap.1 hr with ⟨a, ha, hmem⟩
  refine ⟨a, ha, ?_⟩
  revert hmem
  cases h : right.filter (eq a) with
  | nil => intro hmem; exact Or.inl ⟨List.mem_singleton.1 hmem, rfl⟩
  | cons b bs =>
    intro hmem
    rcases List.mem_map.1 hmem with ⟨b', hb', hcomb⟩
    have hb'' : b' ∈ right.filter (eq a) := by rw [h]; exact hb'
    exact Or.inr ⟨b', List.mem_of_mem_filter hb'', List.of_mem_filter hb'', hcomb.symm⟩

/-! ## Claim C3: profit margin -/

/-- Claim C3: after product enrichment, every product row with positive
price carries profit_margin equal to (price - cost) / price rounded to 4
decimal places, and a row with price 0 carries the undefined (missing)
margin, the enrichment being a total function that raises nothing. -/
theorem claim3_profit_margin (products : List ProductRow) (categories : List CategoryRow)
    (r : EProductRow) (hr : r ∈ transformProductData products categories) :
    (0 < r.price → r.profit_margin = some (round4 ((r.price - r.cost) / r.price)))
    ∧ (r.price = 0 → r.profit_margin = none) := by
  unfold transformProductData at hr
  rcases leftJoin_mem hr with ⟨p, _, m, rfl⟩
  constructor
  · intro hpos
    have hne : ¬ p.price = 0 := by
      intro h0
      simp only [h0] at hpos
      exact lt_irrefl 0 hpos
    simp [marginOf, hne]
  · intro h0
    simp [marginOf] at h0 ⊢
    simp [h0]

/-- Witness for C3 at the example data: the enriched Widget row has price
10, cost 4 and margin 0.6. -/
theorem claim3_profit_margin_witness :
    (0 < exEnrichedWidget.price →
      exEnrichedWidget.profit_margin
        = some (round4 ((exEnrichedWidget.price - exEnrichedWidget.cost)
            / exEnrichedWidget.price)))
    ∧ (exEnrichedWidget.price = 0 → exEnrichedWidget.profit_margin = none) :=
  claim3_profit_margin exTables.products exTables.categories exEnrichedWidget (by
    norm_num [transformProductData, leftJoin, exTables, exProduct1, exProduct2, exCategory,
      exEnrichedWidget, marginOf, round4, round_eq, List.flatMap])

/-! ## Claim C5: hard business-rule violations abort the run -/

theorem except_bind_error {α β : Type} (e : String) (f : α → Except String β) :
    (Except.error e : Except String α) >>= f = .error e := rfl

theorem except_bind_ok {α β : Type} (a : α) (f : α → Except String β) :
    (Except.ok a : Except String α) >>= f = f a := rfl

theorem validateCategories_error_of_missing (t : RawTable RawCategoryRow)
    (h : hasRequired requiredColumnsCategories t.cols = false) :
    ∃ e, validateCategories t = .error e :=
  ⟨"Missing required columns in product_categories.csv", by simp [validateCategories, h]⟩

theorem validateProducts_error_of_violation (t : RawTable RawProductRow)
    (h : hasRequired requiredColumnsProducts t.cols = false
      ∨ t.rows.any (fun r => decide (r.price < 0)) = true) :
    ∃ e, validateProducts t = .error e := by
  rcases h with h | h
  · exact ⟨"Missing required columns in products.csv", by simp [validateProducts, h]⟩
  · by_cases hc : hasRequired requiredColumnsProducts t.cols = true
    · exact ⟨"Found negative prices in products data", by simp [validateProducts, hc, h]⟩
    · exact ⟨"Missing required columns in products.csv", by simp [validateProducts, hc]⟩

theorem validateCustomers_error_of_missing (t : RawTable RawCustomerRow)
    (h : hasRequired requiredColumnsCustomers t.cols = false) :
    ∃ e, validateCustomers t = .error e :=
  ⟨"Missing required columns in customers.csv", by simp [validateCustomers, h]⟩

theorem validateOrders_error_of_violation (t : RawTable RawOrderRow)
    (h : hasRequired requiredColumnsOrders t.cols = false
      ∨ t.rows.any (fun r => decide (r.total_amount < 0)) = true) :
    ∃ e, validateOrders t = .error e := by
  rcases h with h | h
  · exact ⟨"Missing required columns in orders.csv", by simp [validateOrders, h]⟩
  · by_cases hc : hasRequired requiredColumnsOrders t.cols = true
    · exact ⟨"Found negative order amounts", by simp [validateOrders, hc, h]⟩
    · exact ⟨"Missing required columns in orders.csv", by simp [validateOrders, hc]⟩

theorem validateOrderItems_error_of_violation (t : RawTable RawOrderItemRow)
    (h : hasRequired requiredColumnsOrderItems t.cols = false
      ∨ t.rows.any (fun r => decide (r.quantity ≤ 0)) = true
      ∨ t.rows.any (fun r => decide (r.price < 0)) = true) :
    ∃ e, validateOrderItems t = .error e := by
  rcases h with h | h | h
  · exact ⟨"Missing required columns in order_items.csv", by simp [validateOrderItems, h]⟩
  · by_cases hc : hasRequired requiredColumnsOrderItems t.cols = true
    · exact ⟨"Found zero or negative quantities", by simp [validateOrderItems, hc, h]⟩
    · exact ⟨"Missing required columns in order_items.csv", by simp [validateOrderItems, hc]⟩
  · by_cases hc : hasRequired requiredColumnsOrderItems t.cols = true
    · by_cases hq : t.rows.any (fun r => decide (r.quantity ≤ 0)) = true
      · exact ⟨"Found zero or negative quantities", by simp [validateOrderItems, hc, hq]⟩
      · exact ⟨"Found negative prices", by simp [validateOrderItems, hc, hq, h]⟩
    · exact ⟨"Missing required columns in order_items.csv", by simp [validateOrderItems, hc]⟩

/-- Any of the hard violations makes the extraction phase fail. -/
theorem extractAll_error_of_violation (inp : RawInputs)
    (h : inp.products.rows.any (fun r => decide (r.price < 0)) = true
      ∨ inp.orders.rows.any (fun r => decide (r.total_amount < 0)) = true
      ∨ inp.order_items.rows.any (fun r => decide (r.quantity ≤ 0)) = true
      ∨ inp.order_items.rows.any (fun r => decide (r.price < 0)) = true
      ∨ hasRequired requiredColumnsCategories inp.categories.cols = false
      ∨ hasRequired requiredColumnsProducts inp.products.cols = false
      ∨ hasRequired requiredColumnsCustomers inp.customers.cols = false
      ∨ hasRequired requiredColumnsOrders inp.orders.cols = false
      ∨ hasRequired requiredColumnsOrderItems inp.order_items.cols = false) :
    ∃ e, extractAll inp = .error e := by
  cases h1 : validateCategories inp.categories with
  | error e => exact ⟨e, by simp [extractAll, h1, except_bind_error]⟩
  | ok cats =>
  cases h2 : validateProducts inp.products with
  | error e => exact ⟨e, by simp [extractAll, h1, h2, except_bind_error, except_bind_ok]⟩
  | ok prods =>
  cases h3 : validateCustomers inp.customers with
  | error e =>
    exact ⟨e, by simp [extractAll, h1, h2, h3, except_bind_error, except_bind_ok]⟩
  | ok custs =>
  cases h4 : validateOrders inp.orders with
  | error e =>
    exact ⟨e, by simp [extractAll, h1, h2, h3, h4, except_bind_error, except_bind_ok]⟩
  | ok ords =>
  cases h5 : validateOrderItems inp.order_items with
  | error e =>
    exact ⟨e, by simp [extractAll, h1, h2, h3, h4, h5, except_bind_error, except_bind_ok]⟩
  | ok its =>
  exfalso
  rcases h with hv | hv | hv | hv | hv | hv | hv | hv | hv
  · obtain ⟨e, he⟩ := validateProducts_error_of_violation inp.products (Or.inr hv)
    rw [h2] at he; exact Except.noConfusion he
  · obtain ⟨e, he⟩ := validateOrders_error_of_violation inp.orders (Or.inr hv)
    rw [h4] at he; exact Except.noConfusion he
  · obtain ⟨e, he⟩ := validateOrderItems_error_of_violation inp.order_items (Or.inr (Or.inl hv))
    rw [h5] at he; exact Except.noConfusion he
  · obtain ⟨e, he⟩ := validateOrderItems_error_of_violation inp.order_items (Or.inr (Or.inr hv))
    rw [h5] at he; exact Except.noConfusion he
  · obtain ⟨e, he⟩ := validateCategories_error_of_missing inp.categories hv
    rw [h1] at he; exact Except.noConfusion he
  · obtain ⟨e, he⟩ := validateProducts_error_of_violation inp.products (Or.inl hv)
    rw [h2] at he; exact Except.noConfusion he
  · obtain ⟨e, he⟩ := validateCustomers_error_of_missing inp.customers hv
    rw [h3] at he; exact Except.noConfusion he
  · obtain ⟨e, he⟩ := validateOrders_error_of_violation inp.orders (Or.inl hv)
    rw [h4] at he; exact Except.noConfusion he
  · obtain ⟨e, he⟩ := validateOrderItems_error_of_violation inp.order_items (Or.inl hv)
    rw [h5] at he; exact Except.noConfusion he

/-- Claim C5: on any input batch with a hard business-rule violation (a
negative product price, a negative order total, a non-positive item
quantity, a negative item price) or a missing required column in any of the
five input files, the run records a failure and writes no rows to any
warehouse table: extraction raises and the load phase is never reached. -/
theorem claim5_hard_violations_abort (inp : RawInputs) (fails : String → Bool)
    (h : inp.products.rows.any (fun r => decide (r.price < 0)) = true
      ∨ inp.orders.rows.any (fun r => decide (r.total_amount < 0)) = true
      ∨ inp.order_items.rows.any (fun r => decide (r.quantity ≤ 0)) = true
      ∨ inp.order_items.rows.any (fun r => decide (r.price < 0)) = true
      ∨ hasRequired requiredColumnsCategories inp.categories.cols = false
      ∨ hasRequired requiredColumnsProducts inp.products.cols = false
      ∨ hasRequired requiredColumnsCustomers inp.customers.cols = false
      ∨ hasRequired requiredColumnsOrders inp.orders.cols = false
      ∨ hasRequired requiredColumnsOrderItems inp.order_items.cols = false) :
    (runPipeline inp fails).writes = []
      ∧ (runPipeline inp fails).failure.isSome = true := by
  obtain ⟨e, he⟩ := extractAll_error_of_violation inp h
  simp [runPipeline, he]

/-- Witness for C5: the spec scenario of a product priced -5; the run fails
and no table receives a row. -/
theorem claim5_hard_violations_abort_witness :
    (runPipeline exInputsNegPrice (fun _ => false)).writes = []
      ∧ (runPipeline exInputsNegPrice (fun _ => false)).failure.isSome = true :=
  claim5_hard_violations_abort exInputsNegPrice (fun _ => false) (Or.inl (by decide))

/-! ## Claim C9: load order, failure behaviour, resource release -/

/-- The writes performed are exactly the longest prefix of the plan before
the first failing table. -/
theorem performWrites_takeWhile (fails : String → Bool) (l : List WriteEvent) :
    (performWrites fails l).1 = l.takeWhile fun w => !(fails w.table) := by
  induction l with
  | nil => rfl
  | cons w ws ih =>
    by_cases hw : fails w.table = true
    · simp [performWrites, hw, List.takeWhile_cons]
    · have hw' : fails w.table = false := by simpa using hw
      simp [performWrites, hw', List.takeWhile_cons, ih]

/-- Claim C9: the load phase writes the dimension tables dim_time,
product_categories, products and customers in replace mode and then the fact
tables orders, order_items and daily_sales_aggregation in append mode, in
that fixed order; the writes a run performs are the prefix of that plan up
to the first failing table, so a failure prevents every later write; and the
engine is disposed on every exit path of the run. -/
theorem claim9_load_order_and_disposal (inp : RawInputs) (fails : String → Bool)
    (t : Tables) (tt : TransformedTables)
    (hx : extractAll inp = .ok t) (ht : transformAll t = .ok tt) :
    ((plannedWrites tt).map fun w => (w.table, w.mode))
        = [("dim_time", WriteMode.replace), ("product_categories", WriteMode.replace),
           ("products", WriteMode.replace), ("customers", WriteMode.replace),
           ("orders", WriteMode.append), ("order_items", WriteMode.append),
           ("daily_sales_aggregation", WriteMode.append)]
      ∧ (runPipeline inp fails).writes
          = (plannedWrites tt).takeWhile (fun w => !(fails w.table))
      ∧ (∀ inp' : RawInputs, ∀ fails' : String → Bool,
          (runPipeline inp' fails').disposed = true) := by
  refine ⟨rfl, ?_, ?_⟩
  · simp [runPipeline, hx, ht, performWrites_takeWhile]
  · intro inp' fails'
    unfold runPipeline
    cases hx' : extractAll inp' with
    | error e => rfl
    | ok t' =>
      cases ht' : transformAll t' with
      | error e => simp [ht']
      | ok tt' => simp [ht']

/-- Witness for C9 at the example data with the products write failing: the
plan is the fixed seven-table sequence and only dim_time and
product_categories are written. -/
theorem claim9_load_order_and_disposal_witness :
    ((plannedWrites exTransformed).map fun w => (w.table, w.mode))
        = [("dim_time", WriteMode.replace), ("product_categories", WriteMode.replace),
           ("products", WriteMode.replace), ("customers", WriteMode.replace),
           ("orders", WriteMode.append), ("order_items", WriteMode.append),
           ("daily_sales_aggregation", WriteMode.append)]
      ∧ (runPipeline exInputs (fun s => decide (s = "products"))).writes
          = (plannedWrites exTransformed).takeWhile
              (fun w => !(decide (w.table = "products")))
      ∧ (∀ inp' : RawInputs, ∀ fails' : String → Bool,
          (runPipeline inp' fails').disposed = true) :=
  claim9_load_order_and_disposal exInputs (fun s => decide (s = "products"))
    exTables exTransformed (by rfl) (by rfl)

/-! ## Claim C6: the invalid-email quality metric -/

/-- Claim C6 (code bug record): the validator nulls the malformed email and
keeps the row, but the invalid_emails business-rule count of
check_data_quality, computed on the post-validation table, cannot count the
nulled row: its contains-at-sign test meets a missing value and the
computation fails (and even were missing values skipped, the count would
stay 0, not 1). -/
theorem claim6_email_metric_gap :
    validateCustomers exRawCustomersBadEmail
        = .ok [⟨1, none, "Jane", "Roe"⟩, ⟨2, some "john@example.com", "John", "Doe"⟩]
      ∧ invalidEmailsMetric
          (([⟨1, none, "Jane", "Roe"⟩, ⟨2, some "john@example.com", "John", "Doe"⟩] :
              List CustomerRow).map fun c => c.email)
          = .error "TypeError: bad operand type for unary invert" := by
  constructor
  · rfl
  · rfl

/-! ## Claim C4: the generated time dimension -/

/-- Counterexample to C4 as stated: with order dates 06:00 of calendar day 0
and 01:00 of calendar day 1 (both legal timestamps after validation), the
orders span the two calendar days 0 and 1, yet the generated time dimension
holds no row of calendar day 1 — date_range steps in whole days from the
minimum timestamp and 06:00 of day 1 already exceeds the maximum. -/
theorem claim4_time_dimension_counterexample :
    dayFloor (intMin (exOrdersIntraday.map fun o => o.order_date)) = 0
      ∧ dayFloor (intMax (exOrdersIntraday.map fun o => o.order_date)) = 1
      ∧ ∀ r ∈ generateTimeDimension exOrdersIntraday, ¬ dayFloor r.date = 1 :=
  ⟨by decide, by decide, by decide⟩

/-- The date range between the extremes of a list of midnight timestamps
lists, day by day, exactly the calendar days between the extreme days. -/
theorem dateRangeD_days (ds : List ℤ) (hne : ds ≠ [])
    (hmid : ∀ d ∈ ds, d % minutesPerDay = 0) :
    (dateRangeD (intMin ds) (intMax ds)).map dayFloor
      = intRangeI (dayFloor (intMin ds)) (dayFloor (intMax ds)) := by
  have hm0 : intMin ds % minutesPerDay = 0 := hmid _ (intMin_mem hne)
  have hM0 : intMax ds % minutesPerDay = 0 := hmid _ (intMax_mem hne)
  have hmM : intMin ds ≤ intMax ds := intMin_le _ (intMax_mem hne)
  obtain ⟨q, hq⟩ : (minutesPerDay : ℤ) ∣ intMin ds := Int.dvd_of_emod_eq_zero hm0
  obtain ⟨Q, hQ⟩ : (minutesPerDay : ℤ) ∣ intMax ds := Int.dvd_of_emod_eq_zero hM0
  have h1440 : (minutesPerDay : ℤ) ≠ 0 := by decide
  have hqQ : q ≤ Q := by
    rw [hq, hQ] at hmM
    exact le_of_mul_le_mul_left hmM (by decide : (0:ℤ) < minutesPerDay)
  have hfloor : ∀ i : ℕ, dayFloor (intMin ds + minutesPerDay * (i : ℤ)) = q + (i : ℤ) := by
    intro i
    rw [hq, dayFloor, show minutesPerDay * q + minutesPerDay * (i : ℤ)
        = minutesPerDay * (q + (i : ℤ)) by ring]
    exact Int.mul_fdiv_cancel_left _ h1440
  have hfq : dayFloor (intMin ds) = q := by
    rw [hq, dayFloor]
    exact Int.mul_fdiv_cancel_left _ h1440
  have hfQ : dayFloor (intMax ds) = Q := by
    rw [hQ, dayFloor]
    exact Int.mul_fdiv_cancel_left _ h1440
  have hcount : (intMax ds - intMin ds).toNat / minutesPerDay.toNat + 1
      = (Q - q + 1).toNat := by
    have ht : minutesPerDay.toNat = 1440 := rfl
    rw [hq, hQ, ht]
    simp only [minutesPerDay]
    omega
  rw [dateRangeD, if_pos hmM, List.map_map, intRangeI, hfq, hfQ, hcount]
  apply List.map_congr_left
  intro i _
  exact hfloor i

/-- Claim C4 as amended: provided every order date lies at midnight (a pure
calendar date), the time dimension has exactly one row per calendar day from
the minimum to the maximum order date inclusive — the listed days are the
consecutive integers, so no day is missing and none repeats — and each row
is flagged weekend exactly on a Saturday or Sunday and never flagged
holiday. -/
theorem claim4_time_dimension_midnight (orders : List EOrderRow)
    (hne : orders ≠ [])
    (hmid : ∀ o ∈ orders, o.order_date % minutesPerDay = 0) :
    ((generateTimeDimension orders).map fun r => dayFloor r.date)
        = intRangeI (dayFloor (intMin (orders.map fun o => o.order_date)))
            (dayFloor (intMax (orders.map fun o => o.order_date)))
      ∧ (∀ r ∈ generateTimeDimension orders,
          (r.is_weekend = true ↔ isSaturday (dayFloor r.date) ∨ isSunday (dayFloor r.date))
          ∧ r.is_holiday = false) := by
  have hds : orders.map (fun o => o.order_date) ≠ [] := by
    intro hnil
    exact hne (List.map_eq_nil_iff.1 hnil)
  have hmid' : ∀ d ∈ orders.map (fun o => o.order_date), d % minutesPerDay = 0 := by
    intro d hd
    rcases List.mem_map.1 hd with ⟨o, ho, rfl⟩
    exact hmid o ho
  constructor
  · have h1 : ((generateTimeDimension orders).map fun r => dayFloor r.date)
        = (dateRangeD (intMin (orders.map fun o => o.order_date))
            (intMax (orders.map fun o => o.order_date))).map dayFloor := by
      rw [generateTimeDimension, List.map_map]
      apply List.map_congr_left
      intro t _
      rfl
    rw [h1]
    exact dateRangeD_days _ hds hmid'
  · intro r hr
    rw [generateTimeDimension] at hr
    rcases List.mem_map.1 hr with ⟨t, _, rfl⟩
    refine ⟨?_, rfl⟩
    simp only [Bool.or_eq_true, decide_eq_true_eq, pandasDayOfWeek, isSaturday, isSunday]
    omega

/-- Witness for the amended C4 at the midnight example orders spanning
calendar days 0, 1 and 2. -/
theorem claim4_time_dimension_midnight_witness :
    ((generateTimeDimension exOrdersMidnight).map fun r => dayFloor r.date)
        = intRangeI (dayFloor (intMin (exOrdersMidnight.map fun o => o.order_date)))
            (dayFloor (intMax (exOrdersMidnight.map fun o => o.order_date)))
      ∧ (∀ r ∈ generateTimeDimension exOrdersMidnight,
          (r.is_weekend = true ↔ isSaturday (dayFloor r.date) ∨ isSunday (dayFloor r.date))
          ∧ r.is_holiday = false) :=
  claim4_time_dimension_midnight exOrdersMidnight
    (by simp [exOrdersMidnight]) (by decide)

/-! ## Claim C1: the daily sales aggregation -/

/-- Claim C1: in the daily sales aggregation, a joined row whose order
status is Cancelled or Returned belongs to no group, and every output row,
keyed by (calendar day, product, category), carries units_sold equal to the
sum of quantities of its group, revenue equal to the sum of totals,
order_count equal to the number of distinct order ids, and avg_unit_price
equal to revenue divided by units_sold. -/
theorem claim1_daily_sales_aggregation (orders : List OrderView)
    (items : List OrderItemRow) (products : List ProductView) (r : DailySalesRow)
    (hr : r ∈ aggregateDailySales orders items products) :
    (∀ j ∈ salesJoin items orders products, excludedStatus j.status = true →
        j ∉ ((salesJoin items orders products).filter
              (fun x => !(excludedStatus x.status))).filter
            (fun x => decide (salesKey x
              = some (r.order_date, r.product_id, r.category_id))))
      ∧ r.units_sold = qsum ((((salesJoin items orders products).filter
            (fun x => !(excludedStatus x.status))).filter
            (fun x => decide (salesKey x
              = some (r.order_date, r.product_id, r.category_id)))).map
            fun x => x.quantity)
      ∧ r.revenue = qsum ((((salesJoin items orders products).filter
            (fun x => !(excludedStatus x.status))).filter
            (fun x => decide (salesKey x
              = some (r.order_date, r.product_id, r.category_id)))).map
            fun x => x.total)
      ∧ r.order_count = ((((salesJoin items orders products).filter
            (fun x => !(excludedStatus x.status))).filter
            (fun x => decide (salesKey x
              = some (r.order_date, r.product_id, r.category_id)))).map
            fun x => x.order_id).dedup.length
      ∧ r.avg_unit_price = r.revenue / r.units_sold := by
  simp only [aggregateDailySales] at hr
  rcases List.mem_map.1 hr with ⟨k, _, rfl⟩
  obtain ⟨d, pid, cid⟩ := k
  refine ⟨?_, rfl, rfl, rfl, rfl⟩
  intro j _ hexc hmem
  have hj : j ∈ (salesJoin items orders products).filter
      fun x => !(excludedStatus x.status) := List.mem_of_mem_filter hmem
  have := List.of_mem_filter hj
  rw [hexc] at this
  exact Bool.noConfusion this

/-- Witness for C1 at the example data: the Widget group of day 0. -/
theorem claim1_daily_sales_aggregation_witness :
    (∀ j ∈ salesJoin exTables.order_items (exTables.orders.map rawOrderView)
        (exTables.products.map rawProductView), excludedStatus j.status = true →
        j ∉ ((salesJoin exTables.order_items (exTables.orders.map rawOrderView)
              (exTables.products.map rawProductView)).filter
              (fun x => !(excludedStatus x.status))).filter
            (fun x => decide (salesKey x
              = some (exDailySalesRow.order_date, exDailySalesRow.product_id,
                  exDailySalesRow.category_id))))
      ∧ exDailySalesRow.units_sold = qsum ((((salesJoin exTables.order_items
            (exTables.orders.map rawOrderView)
            (exTables.products.map rawProductView)).filter
            (fun x => !(excludedStatus x.status))).filter
            (fun x => decide (salesKey x
              = some (exDailySalesRow.order_date, exDailySalesRow.product_id,
                  exDailySalesRow.category_id)))).map
            fun x => x.quantity)
      ∧ exDailySalesRow.revenue = qsum ((((salesJoin exTables.order_items
            (exTables.orders.map rawOrderView)
            (exTables.products.map rawProductView)).filter
            (fun x => !(excludedStatus x.status))).filter
            (fun x => decide (salesKey x
              = some (exDailySalesRow.order_date, exDailySalesRow.product_id,
                  exDailySalesRow.category_id)))).map
            fun x => x.total)
      ∧ exDailySalesRow.order_count = ((((salesJoin exTables.order_items
            (exTables.orders.map rawOrderView)
            (exTables.products.map rawProductView)).filter
            (fun x => !(excludedStatus x.status))).filter
            (fun x => decide (salesKey x
              = some (exDailySalesRow.order_date, exDailySalesRow.product_id,
                  exDailySalesRow.category_id)))).map
            fun x => x.order_id).dedup.length
      ∧ exDailySalesRow.avg_unit_price = exDailySalesRow.revenue / exDailySalesRow.units_sold :=
  claim1_daily_sales_aggregation (exTables.orders.map rawOrderView)
    exTables.order_items (exTables.products.map rawProductView) exDailySalesRow (by
      have hval : aggregateDailySales (exTables.orders.map rawOrderView)
          exTables.order_items (exTables.products.map rawProductView)
          = [⟨0, 1, 1, 2, 20, 1, 20 / 2⟩, ⟨0, 2, 1, 2, 30, 1, 30 / 2⟩] := by
        simp only [aggregateDailySales, salesJoin, leftJoin, keysOf, salesKey,
          excludedStatus, qsum, List.flatMap, exTables, exOrder, exItem1, exItem2,
          exProduct1, exProduct2, rawOrderView, rawProductView, List.map, List.filter,
          List.filterMap, List.append, show dayFloor 0 = (0:ℤ) from by decide]
        norm_num [List.dedup_cons_of_not_mem, List.dedup_cons_of_mem]
      rw [hval]
      have hrow : exDailySalesRow = (⟨0, 1, 1, 2, 20, 1, 20 / 2⟩ : DailySalesRow) := by
        simp [exDailySalesRow]
        norm_num
      rw [hrow]
      exact List.mem_cons_self _ _)

/-! ## Claim C2: order revenue -/

/-- When product ids are unique, the cost join pairs each item with its
looked-up cost, one output row per item. -/
theorem itemsWithProducts_eq_map (items : List OrderItemRow) (products : List EProductRow)
    (hnodup : (products.map fun p => p.product_id).Nodup) :
    itemsWithProducts items products
      = items.map fun it => ⟨it, costLookup products it⟩ := by
  unfold itemsWithProducts
  rw [leftJoin_eq_map_find]
  · rfl
  · intro it
    apply filter_length_le_one ?_ hnodup
    intro b b' hb hb'
    have h1 : b.product_id = it.product_id := of_decide_eq_true hb
    have h2 : b'.product_id = it.product_id := of_decide_eq_true hb'
    simp [h1, h2]

/-- Claim C2: after the order revenue transform (with unique product ids,
product_id being the key of the products table), every order with at least
one item carries total equal to the sum of the totals of its items, profit
equal to the sum of the per-item total minus cost times quantity (items
whose product the left join misses contribute no addend, their per-item
profit being undefined), and quantity equal to the sum of the item
quantities; every order with no items keeps the three aggregates null. -/
theorem claim2_order_revenue (orders : List OrderRow) (items : List OrderItemRow)
    (products : List EProductRow)
    (hnodup : (products.map fun p => p.product_id).Nodup) :
    calculateOrderRevenue orders items products = orders.map fun o =>
      if (items.filter fun it => decide (it.order_id = o.order_id)).isEmpty then
        ⟨o.order_id, o.customer_id, o.order_date, o.status, o.payment_method,
          o.total_amount, none, none, none⟩
      else
        ⟨o.order_id, o.customer_id, o.order_date, o.status, o.payment_method,
          o.total_amount,
          some (qsum ((items.filter fun it => decide (it.order_id = o.order_id)).map
            fun it => it.total)),
          some (osum ((items.filter fun it => decide (it.order_id = o.order_id)).map
            fun it => (costLookup products it).map fun c => it.total - c * it.quantity)),
          some (qsum ((items.filter fun it => decide (it.order_id = o.order_id)).map
            fun it => it.quantity))⟩ := by
  unfold calculateOrderRevenue
  rw [itemsWithProducts_eq_map items products hnodup]
  have hkeys : keysOf (fun iw : ItemWithCost => some iw.item.order_id)
      (items.map fun it => ⟨it, costLookup products it⟩)
      = (items.map fun it => it.order_id).dedup := by
    unfold keysOf
    rw [filterMap_some_comp, List.map_map]
    rfl
  have hgroup : ∀ oid : ℤ,
      ((items.map fun it => (⟨it, costLookup products it⟩ : ItemWithCost)).filter
        fun iw => decide (iw.item.order_id = oid))
      = (items.filter fun it => decide (it.order_id = oid)).map
          fun it => ⟨it, costLookup products it⟩ := by
    intro oid
    rw [List.filter_map]
    rfl
  have hms : orderMetricsOf (items.map fun it => ⟨it, costLookup products it⟩)
      = ((items.map fun it => it.order_id).dedup).map fun oid =>
          ⟨oid,
            qsum ((items.filter fun it => decide (it.order_id = oid)).map
              fun it => it.total),
            osum ((items.filter fun it => decide (it.order_id = oid)).map
              fun it => (costLookup products it).map fun c => it.total - c * it.quantity),
            qsum ((items.filter fun it => decide (it.order_id = oid)).map
              fun it => it.quantity)⟩ := by
    unfold orderMetricsOf
    rw [hkeys]
    apply List.map_congr_left
    intro oid _
    rw [hgroup oid]
    simp only [List.map_map]
    rfl
  rw [hms]
  have hmsnodup : ∀ o : OrderRow,
      ((((items.map fun it => it.order_id).dedup).map fun oid =>
          (⟨oid,
            qsum ((items.filter fun it => decide (it.order_id = oid)).map
              fun it => it.total),
            osum ((items.filter fun it => decide (it.order_id = oid)).map
              fun it => (costLookup products it).map fun c => it.total - c * it.quantity),
            qsum ((items.filter fun it => decide (it.order_id = oid)).map
              fun it => it.quantity)⟩ : OrderMetrics)).filter
          fun m => decide (m.order_id = o.order_id)).length ≤ 1 := by
    intro o
    apply @filter_length_le_one _ _ _ (fun m : OrderMetrics => m.order_id) _
    · intro b b' hb hb'
      have h1 : b.order_id = o.order_id := of_decide_eq_true hb
      have h2 : b'.order_id = o.order_id := of_decide_eq_true hb'
      rw [h1, h2]
    · rw [List.map_map]
      have : ((fun m : OrderMetrics => m.order_id) ∘ fun oid =>
          (⟨oid,
            qsum ((items.filter fun it => decide (it.order_id = oid)).map
              fun it => it.total),
            osum ((items.filter fun it => decide (it.order_id = oid)).map
              fun it => (costLookup products it).map fun c => it.total - c * it.quantity),
            qsum ((items.filter fun it => decide (it.order_id = oid)).map
              fun it => it.quantity)⟩ : OrderMetrics)) = id := by
        funext oid
        rfl
      rw [this, List.map_id]
      exact List.nodup_dedup _
  rw [leftJoin_eq_map_find hmsnodup]
  apply List.map_congr_left
  intro o _
  rw [List.find?_map]
  have hcomp : ((fun m : OrderMetrics => decide (m.order_id = o.order_id)) ∘ fun oid =>
      (⟨oid,
        qsum ((items.filter fun it => decide (it.order_id = oid)).map
          fun it => it.total),
        osum ((items.filter fun it => decide (it.order_id = oid)).map
          fun it => (costLookup products it).map fun c => it.total - c * it.quantity),
        qsum ((items.filter fun it => decide (it.order_id = oid)).map
          fun it => it.quantity)⟩ : OrderMetrics))
      = fun oid : ℤ => decide (oid = o.order_id) := by
    funext oid
    rfl
  rw [hcomp, find?_eq_self]
  by_cases hmem : o.order_id ∈ (items.map fun it => it.order_id).dedup
  · rw [if_pos hmem]
    have hne : ¬ (items.filter fun it => decide (it.order_id = o.order_id)).isEmpty = true := by
      rw [List.isEmpty_iff, List.filter_eq_nil_iff]
      rcases List.mem_dedup.1 hmem with hmem'
      rcases List.mem_map.1 hmem' with ⟨it, hit, hoid⟩
      intro hall
      exact hall it hit (decide_eq_true hoid)
    rw [if_neg hne]
    simp only [Option.map_some']
  · rw [if_neg hmem]
    have hemp : (items.filter fun it => decide (it.order_id = o.order_id)).isEmpty = true := by
      rw [List.isEmpty_iff, List.filter_eq_nil_iff]
      intro it hit hoid
      exact hmem (List.mem_dedup.2 (List.mem_map.2 ⟨it, hit, of_decide_eq_true hoid⟩))
    rw [if_pos hemp]
    simp only [Option.map_none']

/-- Witness for C2 at the example order with two items and a products table
holding only the Widget (so the Gadget item exercises the left-join miss). -/
theorem claim2_order_revenue_witness :
    calculateOrderRevenue [exOrder] [exItem1, exItem2] [exEnrichedWidget]
      = [exOrder].map fun o =>
        if (([exItem1, exItem2] : List OrderItemRow).filter
            fun it => decide (it.order_id = o.order_id)).isEmpty then
          ⟨o.order_id, o.customer_id, o.order_date, o.status, o.payment_method,
            o.total_amount, none, none, none⟩
        else
          ⟨o.order_id, o.customer_id, o.order_date, o.status, o.payment_method,
            o.total_amount,
            some (qsum ((([exItem1, exItem2] : List OrderItemRow).filter
              fun it => decide (it.order_id = o.order_id)).map fun it => it.total)),
            some (osum ((([exItem1, exItem2] : List OrderItemRow).filter
              fun it => decide (it.order_id = o.order_id)).map
              fun it => (costLookup [exEnrichedWidget] it).map
                fun c => it.total - c * it.quantity)),
            some (qsum ((([exItem1, exItem2] : List OrderItemRow).filter
              fun it => decide (it.order_id = o.order_id)).map fun it => it.quantity))⟩ :=
  claim2_order_revenue [exOrder] [exItem1, exItem2] [exEnrichedWidget] (by decide)

/-! ## Claim C7: customer enrichment -/

/-- Claim C7: after customer enrichment, a customer with at least one order
of status Delivered, In Transit or Shipped carries total_orders equal to the
number of those orders, lifetime_value equal to the sum of their (present)
derived totals, first and last order date equal to their extreme order
dates, average_order_value equal to lifetime_value over total_orders, and
days_between_orders equal to the whole-day span between the extreme dates
over total_orders (so a single-order customer gets 0); a customer with no
qualifying order keeps every derived field null. -/
theorem claim7_customer_enrichment (customers : List CustomerRow) (orders : List EOrderRow) :
    enrichCustomerData customers orders = customers.map fun c =>
      if ((orders.filter fun o => qualifyingStatus o.status).filter
          fun o => decide (o.customer_id = c.customer_id)).isEmpty then
        ⟨c.customer_id, c.email, c.first_name, c.last_name,
          none, none, none, none, none, none⟩
      else
        ⟨c.customer_id, c.email, c.first_name, c.last_name,
          some ((orders.filter fun o => qualifyingStatus o.status).filter
            fun o => decide (o.customer_id = c.customer_id)).length,
          some (osum ((((orders.filter fun o => qualifyingStatus o.status).filter
            fun o => decide (o.customer_id = c.customer_id))).map fun o => o.total)),
          some (intMin ((((orders.filter fun o => qualifyingStatus o.status).filter
            fun o => decide (o.customer_id = c.customer_id))).map fun o => o.order_date)),
          some (intMax ((((orders.filter fun o => qualifyingStatus o.status).filter
            fun o => decide (o.customer_id = c.customer_id))).map fun o => o.order_date)),
          some (osum ((((orders.filter fun o => qualifyingStatus o.status).filter
              fun o => decide (o.customer_id = c.customer_id))).map fun o => o.total)
            / ((((orders.filter fun o => qualifyingStatus o.status).filter
              fun o => decide (o.customer_id = c.customer_id))).length : ℚ)),
          some (((Int.fdiv (intMax ((((orders.filter fun o => qualifyingStatus o.status).filter
                fun o => decide (o.customer_id = c.customer_id))).map fun o => o.order_date)
              - intMin ((((orders.filter fun o => qualifyingStatus o.status).filter
                fun o => decide (o.customer_id = c.customer_id))).map fun o => o.order_date))
              minutesPerDay : ℤ) : ℚ)
            / ((((orders.filter fun o => qualifyingStatus o.status).filter
              fun o => decide (o.customer_id = c.customer_id))).length : ℚ))⟩ := by
  unfold enrichCustomerData
  have hmsnodup : ∀ c : CustomerRow,
      ((customerMetricsOf orders).filter
        fun m => decide (m.customer_id = c.customer_id)).length ≤ 1 := by
    intro c
    apply @filter_length_le_one _ _ _ (fun m : CustomerMetrics => m.customer_id) _
    · intro b b' hb hb'
      rw [of_decide_eq_true hb, of_decide_eq_true hb']
    · simp only [customerMetricsOf, keysOf]
      rw [List.map_map]
      have hid : ((fun m : CustomerMetrics => m.customer_id) ∘ fun cid =>
          (⟨cid,
            ((orders.filter fun o => qualifyingStatus o.status).filter
              fun o => decide (o.customer_id = cid)).length,
            osum (((orders.filter fun o => qualifyingStatus o.status).filter
              fun o => decide (o.customer_id = cid)).map fun o => o.total),
            intMin (((orders.filter fun o => qualifyingStatus o.status).filter
              fun o => decide (o.customer_id = cid)).map fun o => o.order_date),
            intMax (((orders.filter fun o => qualifyingStatus o.status).filter
              fun o => decide (o.customer_id = cid)).map fun o => o.order_date),
            osum (((orders.filter fun o => qualifyingStatus o.status).filter
                fun o => decide (o.customer_id = cid)).map fun o => o.total)
              / ((((orders.filter fun o => qualifyingStatus o.status).filter
                fun o => decide (o.customer_id = cid))).length : ℚ),
            ((Int.fdiv (intMax (((orders.filter fun o => qualifyingStatus o.status).filter
                  fun o => decide (o.customer_id = cid)).map fun o => o.order_date)
                - intMin (((orders.filter fun o => qualifyingStatus o.status).filter
                  fun o => decide (o.customer_id = cid)).map fun o => o.order_date))
                minutesPerDay : ℤ) : ℚ)
              / ((((orders.filter fun o => qualifyingStatus o.status).filter
                fun o => decide (o.customer_id = cid))).length : ℚ)⟩ : CustomerMetrics))
          = id := by
        funext cid
        rfl
      rw [hid, List.map_id]
      exact List.nodup_dedup _
  rw [leftJoin_eq_map_find hmsnodup]
  apply List.map_congr_left
  intro c _
  simp only [customerMetricsOf, keysOf]
  rw [filterMap_some_comp, List.find?_map]
  rw [show ((fun m : CustomerMetrics => decide (m.customer_id = c.customer_id)) ∘ fun cid =>
      (⟨cid,
        ((orders.filter fun o => qualifyingStatus o.status).filter
          fun o => decide (o.customer_id = cid)).length,
        osum (((orders.filter fun o => qualifyingStatus o.status).filter
          fun o => decide (o.customer_id = cid)).map fun o => o.total),
        intMin (((orders.filter fun o => qualifyingStatus o.status).filter
          fun o => decide (o.customer_id = cid)).map fun o => o.order_date),
        intMax (((orders.filter fun o => qualifyingStatus o.status).filter
          fun o => decide (o.customer_id = cid)).map fun o => o.order_date),
        osum (((orders.filter fun o => qualifyingStatus o.status).filter
            fun o => decide (o.customer_id = cid)).map fun o => o.total)
          / ((((orders.filter fun o => qualifyingStatus o.status).filter
            fun o => decide (o.customer_id = cid))).length : ℚ),
        ((Int.fdiv (intMax (((orders.filter fun o => qualifyingStatus o.status).filter
              fun o => decide (o.customer_id = cid)).map fun o => o.order_date)
            - intMin (((orders.filter fun o => qualifyingStatus o.status).filter
              fun o => decide (o.customer_id = cid)).map fun o => o.order_date))
            minutesPerDay : ℤ) : ℚ)
          / ((((orders.filter fun o => qualifyingStatus o.status).filter
            fun o => decide (o.customer_id = cid))).length : ℚ)⟩ : CustomerMetrics))
      = fun cid : ℤ => decide (cid = c.customer_id) from funext fun cid => rfl]
  rw [find?_eq_self]
  by_cases hmem : c.customer_id
      ∈ ((orders.filter fun o => qualifyingStatus o.status).map
          fun o => o.customer_id).dedup
  · rw [if_pos hmem]
    have hne : ¬ ((orders.filter fun o => qualifyingStatus o.status).filter
        fun o => decide (o.customer_id = c.customer_id)).isEmpty = true := by
      rw [List.isEmpty_iff, List.filter_eq_nil_iff]
      rcases List.mem_map.1 (List.mem_dedup.1 hmem) with ⟨o, ho, hoid⟩
      intro hall
      exact hall o ho (decide_eq_true hoid)
    rw [if_neg hne]
    simp only [Option.map_some']
  · rw [if_neg hmem]
    have hemp : ((orders.filter fun o => qualifyingStatus o.status).filter
        fun o => decide (o.customer_id = c.customer_id)).isEmpty = true := by
      rw [List.isEmpty_iff, List.filter_eq_nil_iff]
      intro o ho hoid
      exact hmem (List.mem_dedup.2 (List.mem_map.2 ⟨o, ho, of_decide_eq_true hoid⟩))
    rw [if_pos hemp]
    simp only [Option.map_none']

/-! ## Claim C10: unmatched order items vanish from the aggregation -/

/-- The step 4 join processes the items one at a time. -/
theorem salesJoin_eq_flatMap (items : List OrderItemRow) (orders : List OrderView)
    (products : List ProductView) :
    salesJoin items orders products
      = items.flatMap (salesJoinRowsOf orders products) := by
  induction items with
  | nil => rfl
  | cons it its ih =>
    rw [List.flatMap_cons, ← ih]
    simp only [salesJoin, salesJoinRowsOf, leftJoin, List.flatMap_cons, List.flatMap_nil,
      List.append_nil, List.flatMap_append]

/-- Every joined row of an item whose order or product the join misses has a
missing group key. -/
theorem salesKey_none_of_unmatched (orders : List OrderView) (products : List ProductView)
    (it : OrderItemRow)
    (h : (orders.any (fun o => decide (o.order_id = it.order_id))
        && products.any (fun p => decide (p.product_id = it.product_id))) = false) :
    ∀ r ∈ salesJoinRowsOf orders products it, salesKey r = none := by
  intro r hr
  rw [salesJoinRowsOf, salesJoin] at hr
  rcases leftJoin_mem_cases hr with ⟨a, ha, hcase⟩
  rcases leftJoin_mem_cases ha with ⟨it', hit', hinner⟩
  have hit : it' = it := List.mem_singleton.1 hit'
  rcases Bool.and_eq_false_iff.1 h with hno | hnp
  · -- no matching order: a was built with no order match, its date missing
    rcases hinner with ⟨haeq, _⟩ | ⟨o, ho_mem, ho_eq, haeq⟩
    · rcases hcase with ⟨heq, _⟩ | ⟨b, _, _, heq⟩ <;>
        · subst heq
          rw [haeq]
          rfl
    · exfalso
      rw [hit] at ho_eq
      have : orders.any (fun o => decide (o.order_id = it.order_id)) = true :=
        List.any_eq_true.2 ⟨o, ho_mem, ho_eq⟩
      rw [hno] at this
      exact Bool.noConfusion this
  · -- no matching product: the outer join finds nothing, the category missing
    have hap : a.product_id = it.product_id := by
      rcases hinner with ⟨haeq, _⟩ | ⟨o, _, _, haeq⟩ <;> rw [haeq, hit]
    rcases hcase with ⟨heq, _⟩ | ⟨b, hb_mem, hb_eq, heq⟩
    · subst heq
      rcases hd : a.order_date with _ | d
      · simp [salesKey, hd]
      · simp [salesKey, hd]
    · exfalso
      have hbp : b.product_id = a.product_id := of_decide_eq_true hb_eq
      have : products.any (fun p => decide (p.product_id = it.product_id)) = true :=
        List.any_eq_true.2 ⟨b, hb_mem, decide_eq_true (by rw [hbp, hap])⟩
      rw [hnp] at this
      exact Bool.noConfusion this

/-- Claim C10: an order item whose product_id matches no product or whose
order_id matches no order is silently dropped from the daily sales output —
deleting all such items from the input leaves the aggregation unchanged,
because their joined rows carry a missing group key and the groupby drops
rows with missing keys; no error is reported. -/
theorem claim10_unmatched_items_dropped (orders : List OrderView)
    (items : List OrderItemRow) (products : List ProductView) :
    aggregateDailySales orders items products
      = aggregateDailySales orders
          (items.filter fun it => orders.any (fun o => decide (o.order_id = it.order_id))
            && products.any (fun p => decide (p.product_id = it.product_id)))
          products := by
  have hF : ∀ its : List OrderItemRow,
      (salesJoin its orders products).filter (fun r => !(excludedStatus r.status))
        = its.flatMap fun it =>
            (salesJoinRowsOf orders products it).filter
              fun r => !(excludedStatus r.status) := by
    intro its
    rw [salesJoin_eq_flatMap, filter_flatMap]
  have hnone : ∀ it ∈ items,
      (orders.any (fun o => decide (o.order_id = it.order_id))
        && products.any (fun p => decide (p.product_id = it.product_id))) = false →
      ∀ r ∈ (salesJoinRowsOf orders products it).filter
          (fun r => !(excludedStatus r.status)), salesKey r = none := by
    intro it _ hP r hr
    exact salesKey_none_of_unmatched orders products it hP r (List.mem_of_mem_filter hr)
  have hkeys : ∀ it ∈ items,
      (orders.any (fun o => decide (o.order_id = it.order_id))
        && products.any (fun p => decide (p.product_id = it.product_id))) = false →
      ((salesJoinRowsOf orders products it).filter
          (fun r => !(excludedStatus r.status))).filterMap salesKey = [] := by
    intro it hit hP
    rw [List.filterMap_eq_nil_iff]
    intro r hr
    exact hnone it hit hP r hr
  have hgrp : ∀ k : ℤ × ℤ × ℤ, ∀ it ∈ items,
      (orders.any (fun o => decide (o.order_id = it.order_id))
        && products.any (fun p => decide (p.product_id = it.product_id))) = false →
      ((salesJoinRowsOf orders products it).filter
          (fun r => !(excludedStatus r.status))).filter
          (fun r => decide (salesKey r = some k)) = [] := by
    intro k it hit hP
    rw [List.filter_eq_nil_iff]
    intro r hr hdec
    have := hnone it hit hP r hr
    rw [this] at hdec
    exact Option.noConfusion (of_decide_eq_true hdec)
  simp only [aggregateDailySales, keysOf]
  simp only [hF]
  rw [filterMap_flatMap, filterMap_flatMap, flatMap_filter_of_nil hkeys]
  apply List.map_congr_left
  intro k _
  rw [filter_flatMap, filter_flatMap, flatMap_filter_of_nil (hgrp k)]

/-! ## Claim C8: which snapshots step 4 reads -/

/-- A left join whose projection ignores the joined columns projects to the
left table, provided each left row finds at most one match. -/
theorem leftJoin_map_of_unique {eq : α → β → Bool} {combine : α → Option β → γ}
    {right : List β} {left : List α} (proj : γ → δ)
    (h : ∀ a, (right.filter (eq a)).length ≤ 1)
    (hproj : ∀ a m, proj (combine a m) = proj (combine a none)) :
    (leftJoin eq combine right left).map proj
      = left.map fun a => proj (combine a none) := by
  rw [leftJoin_eq_map_find h, List.map_map]
  apply List.map_congr_left
  intro a _
  exact hproj a _

/-- The keys of the per-order metrics are distinct. -/
theorem orderMetricsOf_key_nodup (iwc : List ItemWithCost) :
    ((orderMetricsOf iwc).map fun m => m.order_id).Nodup := by
  simp only [orderMetricsOf, keysOf]
  rw [List.map_map]
  have hid : ((fun m : OrderMetrics => m.order_id) ∘ fun oid =>
      (⟨oid, qsum ((iwc.filter fun iw => decide (iw.item.order_id = oid)).map
          fun iw => iw.item.total),
        osum ((iwc.filter fun iw => decide (iw.item.order_id = oid)).map itemProfit),
        qsum ((iwc.filter fun iw => decide (iw.item.order_id = oid)).map
          fun iw => iw.item.quantity)⟩ : OrderMetrics)) = id := by
    funext oid
    rfl
  rw [hid, List.map_id]
  exact List.nodup_dedup _

/-- Step 2 keeps the orders table aligned: projected onto the columns step 4
selects, the enriched orders are the raw validated orders. -/
theorem ordersEnriched_view (orders : List OrderRow) (items : List OrderItemRow)
    (products : List EProductRow) :
    (calculateOrderRevenue orders items products).map orderView
      = orders.map rawOrderView := by
  simp only [calculateOrderRevenue]
  rw [leftJoin_map_of_unique orderView]
  · rfl
  · intro o
    apply @filter_length_le_one _ _ _ (fun m : OrderMetrics => m.order_id) _
    · intro b b' hb hb'
      rw [of_decide_eq_true hb, of_decide_eq_true hb']
    · exact orderMetricsOf_key_nodup _
  · intro o m
    rfl

/-- Step 1 keeps the products table aligned when category ids are unique:
projected onto the columns step 4 selects, the enriched products are the raw
validated products. -/
theorem productsEnriched_view (products : List ProductRow) (categories : List CategoryRow)
    (hnodup : (categories.map fun c => c.category_id).Nodup) :
    (transformProductData products categories).map productView
      = products.map rawProductView := by
  simp only [transformProductData]
  rw [leftJoin_map_of_unique productView]
  · rfl
  · intro p
    apply @filter_length_le_one _ _ _ (fun c : CategoryRow => c.category_id) _
    · intro b b' hb hb'
      have h1 : p.category_id = some b.category_id := of_decide_eq_true hb
      have h2 : p.category_id = some b'.category_id := of_decide_eq_true hb'
      have h3 : some b.category_id = some b'.category_id := h1 ▸ h2
      exact Option.some_injective _ h3
    · exact hnodup
  · intro p m
    rfl

/-- Claim C8 as amended: step 4 reads the in-place enriched orders and
products tables, but it selects exactly the columns enrichment preserves
(order_id, order_date, status from orders; product_id, category_id from
products), so — provided the category ids of the categories table are
distinct, category_id being its key — the daily sales output equals the
aggregation computed from the raw post-validation snapshots.  With a
repeated category_id, step 1 duplicates product rows and step 4
double-counts (see the counterexample). -/
theorem claim8_raw_snapshot_equivalence (t : Tables)
    (hnodup : (t.categories.map fun c => c.category_id).Nodup) :
    dailySalesPipeline t = dailySalesRawSnapshot t := by
  unfold dailySalesPipeline dailySalesRawSnapshot ordersEnriched productsEnriched
  rw [ordersEnriched_view, productsEnriched_view t.products t.categories hnodup]

/-- Witness for the amended C8 at the example data. -/
theorem claim8_raw_snapshot_equivalence_witness :
    dailySalesPipeline exTables = dailySalesRawSnapshot exTables :=
  claim8_raw_snapshot_equivalence exTables (by decide)

/-- Counterexample to C8 as stated: with the categories table repeating
category_id 1, the pipeline step 4 (which reads the in-place enriched
products) produces 2 units and revenue 20 for the single 1-unit item of
total 10, while the aggregation over the raw post-validation snapshots
produces 1 unit and revenue 10 — the outputs differ. -/
theorem claim8_raw_snapshot_counterexample :
    dailySalesPipeline exTablesDupCategory ≠ dailySalesRawSnapshot exTablesDupCategory := by
  have h1 : dailySalesPipeline exTablesDupCategory
      = [⟨0, 1, 1, 1 + (1 + 0), 10 + (10 + 0), 1, (10 + (10 + 0)) / (1 + (1 + 0))⟩] := by
    simp only [dailySalesPipeline, ordersEnriched, productsEnriched, calculateOrderRevenue,
      itemsWithProducts, orderMetricsOf, transformProductData, aggregateDailySales,
      salesJoin, leftJoin, keysOf, salesKey, excludedStatus, qsum, osum, itemProfit,
      marginOf, orderView, productView, exTablesDupCategory, exProduct1, exOrder,
      List.flatMap, List.map, List.filter, List.filterMap, List.append, List.foldr,
      show dayFloor 0 = (0:ℤ) from by decide]
    norm_num [List.dedup_cons_of_not_mem, List.dedup_cons_of_mem]
  have h2 : dailySalesRawSnapshot exTablesDupCategory
      = [⟨0, 1, 1, 1 + 0, 10 + 0, 1, (10 + 0) / (1 + 0)⟩] := by
    simp only [dailySalesRawSnapshot, aggregateDailySales, salesJoin, leftJoin, keysOf,
      salesKey, excludedStatus, qsum, rawOrderView, rawProductView, exTablesDupCategory,
      exProduct1, exOrder, List.flatMap, List.map, List.filter, List.filterMap,
      List.append, List.foldr, show dayFloor 0 = (0:ℤ) from by decide]
    norm_num [List.dedup_cons_of_not_mem, List.dedup_cons_of_mem]
  rw [h1, h2]
  intro h
  have hu : (1 + (1 + 0) : ℚ) = 1 + 0 := congrArg DailySalesRow.units_sold
    (List.head_eq_of_cons_eq h)
  norm_num at hu
